import Mathlib

/-!  Verification of the dontorrent catalog scrapers (exhaustive and fast
variants): episode-code extraction and canonicalization, range filtering,
quality normalization, priority-based selection, proof-of-work solving and
the scrape pipelines, shallowly embedded from the Python sources
`src/scrapers/dontorrent_scraper.py` and
`src/scrapers/dontorrent_fast_scraper.py`.  -/

namespace ScrapApi

/-! ## String primitives (models of the Python string operations used) -/

/-- ASCII digit test: models `\d` of the Python regexes on the ASCII data
handled here. -/
def isAsciiDigit (c : Char) : Bool := '0' ≤ c && c ≤ '9'

/-- Numeric value of an ASCII digit character. -/
def digitVal (c : Char) : Nat := c.toNat - 48

/-- Value of a decimal digit string: models Python `int(...)` on the digit
groups the regexes capture. -/
def natOfDigits (cs : List Char) : Nat := cs.foldl (fun a c => a * 10 + digitVal c) 0

/-- Models Python `str.zfill(w)` on digit strings: left-pad with zeros. -/
def zfill (w : Nat) (s : String) : String :=
  if w ≤ s.length then s else String.mk (List.replicate (w - s.length) '0') ++ s

/-- Models Python `str.upper()`; ASCII case mapping, which covers every string
this development applies it to. -/
def pyUpper (s : String) : String := String.mk (s.data.map Char.toUpper)

/-- Python whitespace for `str.strip()`. -/
def isPySpace (c : Char) : Bool :=
  c == ' ' || c == '\t' || c == '\n' || c == '\r' || c == '\x0b' || c == '\x0c'

/-- Models Python `str.strip()`. -/
def pyStrip (s : String) : String :=
  String.mk (((s.data.dropWhile isPySpace).reverse.dropWhile isPySpace).reverse)

def isPrefixL : List Char → List Char → Bool
  | [], _ => true
  | _ :: _, [] => false
  | a :: as, b :: bs => a == b && isPrefixL as bs

def containsSubL (p : List Char) : List Char → Bool
  | [] => isPrefixL p []
  | c :: cs => isPrefixL p (c :: cs) || containsSubL p cs

/-- Models the Python `needle in hay` substring test. -/
def pyContains (needle hay : String) : Bool := containsSubL needle.data hay.data

/-- Python truthiness of an optional string (`None` and `""` are falsy). -/
def truthyStr : Option String → Bool
  | none => false
  | some s => !s.isEmpty

/-! ## Regex scanners

Character-level models of the `re.search` / `re.match` calls of the two
scrapers.  Each `match…` function tries the pattern anchored at the head of the
list; `searchL` scans positions left to right, which is `re.search`'s
leftmost-match rule.  Greedy bounded quantifiers try the longest count first,
as the backtracking engine does. -/

/-- Maximal run of digits at the head (greedy `\d+` followed by a non-digit
literal or the pattern end never needs a shorter run). -/
def takeDigits : List Char → List Char × List Char
  | [] => ([], [])
  | c :: cs =>
    if isAsciiDigit c then
      let p := takeDigits cs
      (c :: p.1, p.2)
    else ([], c :: cs)

/-- Exactly `n` digits at the head, or `none`. -/
def takeExactDigits : Nat → List Char → Option (List Char × List Char)
  | 0, cs => some ([], cs)
  | _ + 1, [] => none
  | n + 1, c :: cs =>
    if isAsciiDigit c then
      match takeExactDigits n cs with
      | some p => some (c :: p.1, p.2)
      | none => none
    else none

/-- Anchored `S(\d+)E(\d+)` with `re.IGNORECASE`: groups (season, episode). -/
def matchSEUnb : List Char → Option (List Char × List Char)
  | [] => none
  | c :: cs =>
    if c == 'S' || c == 's' then
      let p := takeDigits cs
      match p.1, p.2 with
      | [], _ => none
      | _ :: _, e :: r2 =>
        if e == 'E' || e == 'e' then
          let q := takeDigits r2
          match q.1 with
          | [] => none
          | _ :: _ => some (p.1, q.1)
        else none
      | _ :: _, [] => none
    else none

/-- Anchored `(?:HD|SD)?S(\d+)E(\d+)` with `re.IGNORECASE`: the optional
non-capturing tag is tried first, then the untagged alternative. -/
def matchTagSE : List Char → Option (List Char × List Char)
  | a :: b :: rest =>
    if ((a == 'H' || a == 'h') && (b == 'D' || b == 'd')) ||
       ((a == 'S' || a == 's') && (b == 'D' || b == 'd')) then
      match matchSEUnb rest with
      | some g => some g
      | none => matchSEUnb (a :: b :: rest)
    else matchSEUnb (a :: b :: rest)
  | cs => matchSEUnb cs

/-- `re.search`: try the anchored matcher at each position, leftmost first. -/
def searchL {α : Type} (f : List Char → Option α) : List Char → Option α
  | [] => none
  | c :: cs =>
    match f (c :: cs) with
    | some g => some g
    | none => searchL f cs

/-- Tail `E(\d{1,3})` of the bounded episode pattern (greedy: 3, 2, then 1
digits), `re.IGNORECASE`. -/
def matchETail (cs : List Char) : Option (List Char) :=
  match cs with
  | [] => none
  | e :: r =>
    if e == 'E' || e == 'e' then
      match takeExactDigits 3 r with
      | some p => some p.1
      | none =>
        match takeExactDigits 2 r with
        | some p => some p.1
        | none =>
          match takeExactDigits 1 r with
          | some p => some p.1
          | none => none
    else none

/-- Anchored `S(\d{1,2})E(\d{1,3})` with `re.IGNORECASE`: the season
quantifier is greedy and backtracks from 2 digits to 1. -/
def matchSEb : List Char → Option (List Char × List Char)
  | [] => none
  | s :: r =>
    if s == 'S' || s == 's' then
      match takeExactDigits 2 r with
      | some p =>
        match matchETail p.2 with
        | some g2 => some (p.1, g2)
        | none =>
          match takeExactDigits 1 r with
          | some q =>
            match matchETail q.2 with
            | some g2 => some (q.1, g2)
            | none => none
          | none => none
      | none =>
        match takeExactDigits 1 r with
        | some q =>
          match matchETail q.2 with
          | some g2 => some (q.1, g2)
          | none => none
        | none => none
    else none

/-- Tail `x(\d{1,3})` of the alternate episode pattern, `re.IGNORECASE`. -/
def matchXTail (cs : List Char) : Option (List Char) :=
  match cs with
  | [] => none
  | x :: r =>
    if x == 'x' || x == 'X' then
      match takeExactDigits 3 r with
      | some p => some p.1
      | none =>
        match takeExactDigits 2 r with
        | some p => some p.1
        | none =>
          match takeExactDigits 1 r with
          | some p => some p.1
          | none => none
    else none

/-- Anchored `(\d{1,2})x(\d{1,3})` with `re.IGNORECASE`. -/
def matchXb (cs : List Char) : Option (List Char × List Char) :=
  match takeExactDigits 2 cs with
  | some p =>
    match matchXTail p.2 with
    | some g2 => some (p.1, g2)
    | none =>
      match takeExactDigits 1 cs with
      | some q =>
        match matchXTail q.2 with
        | some g2 => some (q.1, g2)
        | none => none
      | none => none
  | none =>
    match takeExactDigits 1 cs with
    | some q =>
      match matchXTail q.2 with
      | some g2 => some (q.1, g2)
      | none => none
    | none => none

/-- Group of `(\d{3,4})p?` (greedy: 4 then 3 digits; the optional `p` does not
affect the captured group). -/
def matchRes34 (cs : List Char) : Option (List Char) :=
  match takeExactDigits 4 cs with
  | some p => some p.1
  | none =>
    match takeExactDigits 3 cs with
    | some p => some p.1
    | none => none

/-- Group of `(\d+)[pP]?`. -/
def matchResPlus : List Char → Option (List Char)
  | [] => none
  | c :: cs => if isAsciiDigit c then some (c :: (takeDigits cs).1) else none

/-! ## Data model -/

/-- A torrent candidate of the exhaustive scraper (`DontorrentScraper`). -/
structure Torrent where
  status : String
  format : String
  title : String
  title_original : String
  link : String
  episode_code : String
deriving DecidableEq

/-- A torrent candidate of the fast scraper (`DontorrentFastScraper`). -/
structure FastTorrent where
  episode_code : String
  title : String
  link : String
  format : String
  category : String
  status : String
deriving DecidableEq

/-- A series match found by `_search_series` of the exhaustive scraper. -/
structure SerieData where
  title : String
  title_original : String
  url : String
  href : String
deriving DecidableEq

/-- The criteria dictionary: each required key as `criteria.get` reads it
(`none` models an absent key). -/
structure Criteria where
  base_url : Option String
  serie_name : Option String
  start_episode : Option String
  end_episode : Option String
  calidad : Option String
deriving DecidableEq

/-- The dictionary the exhaustive `scrape` returns; each optional field models
a key only some branches emit. -/
structure ScrapeResult where
  error : Option String
  message : Option String
  torrents : List Torrent
  torrents_rest : Option (List Torrent)
  count : Option Nat
  count_total : Option Nat
  count_rest : Option Nat
  serie_name : Option String
  source : Option String
deriving DecidableEq

/-- The dictionary the fast `scrape` returns on success. -/
structure FastScrapeResult where
  torrents : List FastTorrent
  count : Nat
  serie_name : String
  source : String
deriving DecidableEq

/-- An episode page of the fast scraper, as `_get_best_torrent_for_episode`
consumes it: its full text (for the format extractor) and the `href`
attributes of its `download-torrent` links, in document order. -/
structure EpisodePage where
  text : String
  download_links : List String
deriving DecidableEq

/-- An `a[href*="/episodio/"]` link of a season page of the fast scraper:
its `href` and its stripped text. -/
structure EpLink where
  href : String
  text : String
deriving DecidableEq

/-- A row of the episode table of the exhaustive scraper: the texts of its
`td` cells and the `data-content-id` of the anchor of the second cell
(`none` models a missing anchor or attribute). -/
structure Row where
  cells : List String
  content_id : Option String
deriving DecidableEq

/-! ## Shared episode-code helpers -/

/-- Models `re.sub(r'^(HD|SD)', '', s)` (case-sensitive, anchored). -/
def stripTag (s : String) : String :=
  match s.data with
  | a :: b :: rest =>
    if (a == 'H' && b == 'D') || (a == 'S' && b == 'D') then String.mk rest else s
  | _ => s

/-- Models `_extract_episode_code` of the exhaustive scraper: search
`S(\d{1,2})E(\d{1,3})`, then `(\d{1,2})x(\d{1,3})`, and zero-pad both groups
to width 2. -/
def extract_episode_code (title : String) : Option String :=
  match searchL matchSEb title.data with
  | some g => some ("S" ++ zfill 2 (String.mk g.1) ++ "E" ++ zfill 2 (String.mk g.2))
  | none =>
    match searchL matchXb title.data with
    | some g => some ("S" ++ zfill 2 (String.mk g.1) ++ "E" ++ zfill 2 (String.mk g.2))
    | none => none

/-- Models `_is_valid_status_format`: `re.match(r'^(HD|SD)S\d{2}E\d{2}$', s)`.
A Python `$` also accepts one trailing newline. -/
def is_valid_status_format (status : String) : Bool :=
  match status.data with
  | a :: b :: s :: d1 :: d2 :: e :: d3 :: d4 :: rest =>
    ((a == 'H' && b == 'D') || (a == 'S' && b == 'D')) && s == 'S' &&
      isAsciiDigit d1 && isAsciiDigit d2 && e == 'E' && isAsciiDigit d3 &&
      isAsciiDigit d4 && (rest.isEmpty || rest == ['\n'])
  | _ => false

/-! ## Proof of work (shared shape)

Both solvers hash `challenge + str(nonce)` with SHA-256 and compare the hex
digest against `'0' * difficulty`; the digest function is kept abstract as a
parameter `hexdigest`, since every property claimed of the solvers holds for
any digest function. -/

/-- The target prefix `'0' * difficulty`. -/
def powTarget (difficulty : Nat) : String := String.mk (List.replicate difficulty '0')

/-- One iteration's test: does the digest of `challenge + str(nonce)` start
with `difficulty` zero characters? -/
def powCheck (hexdigest : String → String) (challenge : String) (difficulty : Nat)
    (nonce : Nat) : Bool :=
  (hexdigest (challenge ++ toString nonce)).startsWith (powTarget difficulty)

namespace Dontorrent

/-- The exhaustive solver's `while True` loop, indexed by fuel: `none` means
the loop has not returned within `fuel` iterations (the source loop has no
exit besides finding a nonce). -/
def powLoop (hexdigest : String → String) (challenge : String) (difficulty : Nat)
    (nonce : Nat) : Nat → Option Nat
  | 0 => none
  | fuel + 1 =>
    if powCheck hexdigest challenge difficulty nonce then some nonce
    else powLoop hexdigest challenge difficulty (nonce + 1) fuel

/-- Models `_compute_proof_of_work` of `dontorrent_scraper.py`, which loops
without any iteration ceiling; the fuel bounds the model, not the loop. -/
def compute_proof_of_work (hexdigest : String → String) (challenge : String)
    (difficulty : Nat) (fuel : Nat) : Option Nat :=
  powLoop hexdigest challenge difficulty 0 fuel

end Dontorrent

namespace DontorrentFast

/-- The fast solver's loop: it returns `-1` once the incremented nonce
exceeds 10000000, so exactly the nonces `0 .. 10000000` are tested. -/
def powLoopFast (hexdigest : String → String) (challenge : String) (difficulty : Nat)
    (nonce : Nat) : Nat → Int
  | 0 => -1
  | fuel + 1 =>
    if powCheck hexdigest challenge difficulty nonce then (nonce : Int)
    else powLoopFast hexdigest challenge difficulty (nonce + 1) fuel

/-- Models `_compute_proof_of_work` of `dontorrent_fast_scraper.py`. -/
def compute_proof_of_work (hexdigest : String → String) (challenge : String)
    (difficulty : Nat) : Int :=
  powLoopFast hexdigest challenge difficulty 0 10000001

end DontorrentFast

/-! ## Quality normalizers and priorities -/

namespace Dontorrent

/-- Models `_normalize_format` of the exhaustive scraper.  The argument is
optional because callers pass the possibly-`None` raw format. -/
def normalize_format (raw_format : Option String) : String :=
  if !truthyStr raw_format then "SD"
  else
    let f := pyStrip (pyUpper (raw_format.getD ""))
    if f == "4K" then "4K"
    else if f == "2160P" then "4K"
    else if f == "1080P" then "1080p"
    else if f == "720P" then "720p"
    else
      match searchL matchRes34 f.data with
      | some g =>
        let resolution := natOfDigits g
        if 2160 ≤ resolution then "4K"
        else if 1080 ≤ resolution then "1080p"
        else if 720 ≤ resolution then "720p"
        else if pyContains "4K" f || pyContains "UHD" f then "4K"
        else "SD"
      | none =>
        if pyContains "4K" f || pyContains "UHD" f then "4K"
        else "SD"

/-- Models `_get_format_priority`: 720p ranks over 1080p over 4K over SD. -/
def get_format_priority (format_str : Option String) : Nat :=
  if !truthyStr format_str then 0
  else
    let f := pyStrip (pyUpper (format_str.getD ""))
    if f == "720P" then 4
    else if f == "1080P" then 3
    else if f == "4K" then 2
    else if f == "SD" then 1
    else 0

end Dontorrent

namespace DontorrentFast

/-- Models `_normalize_format` of the fast scraper: substring tests on the
upper-cased string, then a `(\d+)[pP]?` search on the original string. -/
def normalize_format (format_str : Option String) : String :=
  if !truthyStr format_str then "SD"
  else
    let s := format_str.getD ""
    let up := pyUpper s
    if pyContains "4K" up || pyContains "2160P" up then "4K"
    else if pyContains "1080P" up || pyContains "1080" up then "1080p"
    else if pyContains "720P" up || pyContains "720" up then "720p"
    else
      match searchL matchResPlus s.data with
      | some g =>
        let resolution := natOfDigits g
        if 2160 ≤ resolution then "4K"
        else if 1080 ≤ resolution then "1080p"
        else if 720 ≤ resolution then "720p"
        else "SD"
      | none => "SD"

/-- The format list `_extract_series_format` of the fast scraper scans, in
source order. -/
def fastFormats : List String := ["4K", "2160p", "1080p", "720p", "HDRip", "WEBRip", "BluRay"]

/-- Models `_extract_series_format` of the fast scraper: the first known
format occurring (case-sensitively) in the page text. -/
def extract_series_format (page_text : String) : Option String :=
  fastFormats.find? (fun fmt => pyContains fmt page_text)

/-- Models `_extract_series_format_category` of the fast scraper: defaults
are category `"HD"` and format `"SD"`. -/
def extract_series_format_category (page_text : String) : String × String :=
  match extract_series_format page_text with
  | none => ("HD", "SD")
  | some f =>
    let fu := pyUpper f
    if fu == "720P" || fu == "1080P" || fu == "4K" || fu == "2160P" then ("HD", f)
    else ("SD", f)

end DontorrentFast

/-! ## Range filters -/

namespace Dontorrent

/-- Models `_is_in_range` of the exhaustive scraper: strip the `HD`/`SD` tag,
parse `S(\d+)E(\d+)` out of each of the three codes, compare season first,
then the episode number within a boundary season. -/
def is_in_range (episode_code start stop : String) : Bool :=
  match searchL matchSEUnb (stripTag episode_code).data with
  | none => false
  | some cur =>
    let curS := natOfDigits cur.1
    let curE := natOfDigits cur.2
    let startOk :=
      match searchL matchSEUnb (stripTag start).data with
      | some sg =>
        if curS < natOfDigits sg.1 then false
        else if curS = natOfDigits sg.1 ∧ curE < natOfDigits sg.2 then false
        else true
      | none => true
    if startOk then
      match searchL matchSEUnb (stripTag stop).data with
      | some eg =>
        if natOfDigits eg.1 < curS then false
        else if curS = natOfDigits eg.1 ∧ natOfDigits eg.2 < curE then false
        else true
      | none => true
    else false

end Dontorrent

namespace DontorrentFast

/-- Models `_is_in_range` of the fast scraper: the tag-tolerant pattern
`(?:HD|SD)?S(\d+)E(\d+)` is searched in each code without stripping, and a
falsy bound is skipped. -/
def is_in_range (episode_code : String) (start_episode end_episode : Option String) : Bool :=
  if !truthyStr start_episode && !truthyStr end_episode then true
  else
    match searchL matchTagSE episode_code.data with
    | none => false
    | some cur =>
      let curS := natOfDigits cur.1
      let curE := natOfDigits cur.2
      let startOk :=
        if truthyStr start_episode then
          match searchL matchTagSE (start_episode.getD "").data with
          | some sg =>
            if curS < natOfDigits sg.1 then false
            else if curS = natOfDigits sg.1 ∧ curE < natOfDigits sg.2 then false
            else true
          | none => true
        else true
      if startOk then
        if truthyStr end_episode then
          match searchL matchTagSE (end_episode.getD "").data with
          | some eg =>
            if natOfDigits eg.1 < curS then false
            else if curS = natOfDigits eg.1 ∧ natOfDigits eg.2 < curE then false
            else true
          | none => true
        else true
      else false

end DontorrentFast

/-! ## Exhaustive scraper: selection, crawling and the scrape pipeline -/

namespace Dontorrent

/-- Stable descending insertion by `_get_format_priority` of the `format`
field: the unique stable sort, hence extensionally
`list.sort(key=..., reverse=True)` of Python. -/
def insertDesc (t : Torrent) : List Torrent → List Torrent
  | [] => [t]
  | h :: rest =>
    if get_format_priority (some t.format) < get_format_priority (some h.format) then
      h :: insertDesc t rest
    else t :: h :: rest

/-- Models `all_torrents.sort(key=lambda t: priority(t.format), reverse=True)`. -/
def sortTorrents (l : List Torrent) : List Torrent := l.foldr insertDesc []

/-- Models the dict-based pass of `scrape`: the first torrent of each status
goes to `unique_torrents` (insertion order kept), later ones to
`rest_torrents`.  `seen` is the set of statuses already in the dict. -/
def splitUnique : List Torrent → List String → List Torrent × List Torrent
  | [], _ => ([], [])
  | t :: rest, seen =>
    if seen.contains t.status then
      let p := splitUnique rest seen
      (p.1, t :: p.2)
    else
      let p := splitUnique rest (t.status :: seen)
      (t :: p.1, p.2)

/-- Sorting then splitting: steps 3 and 4 of the exhaustive `scrape`. -/
def selectTorrents (l : List Torrent) : List Torrent × List Torrent :=
  splitUnique (sortTorrents l) []

/-- Models `_get_episodes` of the exhaustive scraper over the table rows.
`resolve` abstracts `_get_protected_download_url` on a content id (`none`
models the exception a failed PoW exchange raises, caught per row); the
second component records every content id handed to `resolve`, in order. -/
def get_episodes (resolve : String → Option String) (episode_format format_original : String)
    (serie : SerieData) (base_url start_episode end_episode : String) :
    List Row → List Torrent × List String
  | [] => ([], [])
  | row :: rest =>
    let r := get_episodes resolve episode_format format_original serie base_url
      start_episode end_episode rest
    match row.cells with
    | c0 :: _ :: _ =>
      match extract_episode_code (pyStrip c0) with
      | none => r
      | some code =>
        let episode_code := episode_format ++ code
        if !is_valid_status_format episode_code then r
        else if !is_in_range episode_code start_episode end_episode then r
        else
          match row.content_id with
          | none => r
          | some cid =>
            match resolve cid with
            | some protected_url =>
              (⟨episode_code, format_original, serie.title, serie.title_original,
                base_url ++ protected_url, episode_code⟩ :: r.1, cid :: r.2)
            | none => (r.1, cid :: r.2)
    | _ => r

/-- Models `scrape` of the exhaustive scraper.  `series_found` abstracts the
result of `_search_series` and `episodes_of` the per-season `_get_episodes`
call (both are network-backed); the validation, the empty-search branch and
the sort/split/count step are the source's. -/
def scrape (series_found : List SerieData) (episodes_of : SerieData → List Torrent)
    (criteria : Criteria) : ScrapeResult :=
  if !(truthyStr criteria.base_url && truthyStr criteria.serie_name &&
       truthyStr criteria.start_episode && truthyStr criteria.end_episode) then
    ⟨some "Faltan parámetros requeridos: base_url, serie_name, start_episode, end_episode",
      none, [], none, none, none, none, none, none⟩
  else if series_found.isEmpty then
    ⟨none, some ("No se encontraron series para '" ++ criteria.serie_name.getD "" ++ "'"),
      [], none, some 0, none, none, none, none⟩
  else
    let all_torrents := series_found.flatMap episodes_of
    let p := selectTorrents all_torrents
    ⟨none, none, p.1, some p.2, some p.1.length, some all_torrents.length, some p.2.length,
      criteria.serie_name, criteria.base_url⟩

end Dontorrent

/-! ## Fast scraper: early-exit selection, crawling and the scrape pipeline -/

namespace DontorrentFast

/-- The fixed `PRIORITY_ORDER` list of `_get_episodes`. -/
def priorityOrderFast : List String := ["720P", "1080P", "4K", "SD"]

/-- The candidate dictionary `_get_best_torrent_for_episode` builds (both of
its return sites build the same fields). -/
def mkFastTorrent (episode_code episode_text normalized category link : String) : FastTorrent :=
  ⟨episode_code, episode_text ++ " " ++ normalized, link, normalized, category, episode_text⟩

/-- The inner loop of `_get_best_torrent_for_episode` for one target format:
scan the download links; on a format match resolve the link, returning on
success and falling through to the next link on failure.  The second
component records every download url handed to `resolve`, in order. -/
def scanTier (resolve : String → Option String) (page : EpisodePage)
    (episode_code episode_text base_url target : String) :
    List String → Option FastTorrent × List String
  | [] => (none, [])
  | href :: rest =>
    let download_url := base_url ++ href
    let cf := extract_series_format_category page.text
    let normalized := normalize_format (some cf.2)
    if pyUpper normalized == target then
      match resolve download_url with
      | some final_link =>
        (some (mkFastTorrent episode_code episode_text normalized cf.1 final_link),
          [download_url])
      | none =>
        let p := scanTier resolve page episode_code episode_text base_url target rest
        (p.1, download_url :: p.2)
    else
      scanTier resolve page episode_code episode_text base_url target rest

/-- The outer loop of `_get_best_torrent_for_episode` over the priority
order. -/
def tierLoop (resolve : String → Option String) (page : EpisodePage)
    (episode_code episode_text base_url : String) :
    List String → Option FastTorrent × List String
  | [] => (none, [])
  | target :: ts =>
    let p := scanTier resolve page episode_code episode_text base_url target
      page.download_links
    match p.1 with
    | some t => (some t, p.2)
    | none =>
      let q := tierLoop resolve page episode_code episode_text base_url ts
      (q.1, p.2 ++ q.2)

/-- Models `_get_best_torrent_for_episode`: empty link list short-circuits;
otherwise the priority loop, then the first-link fallback.  `resolve`
abstracts `_get_protected_download_url` (returning `None` on failure); the
second component is the trace of resolved urls. -/
def get_best_torrent_for_episode (resolve : String → Option String) (page : EpisodePage)
    (episode_code episode_text base_url : String) (priority_order : List String) :
    Option FastTorrent × List String :=
  match page.download_links with
  | [] => (none, [])
  | first :: _ =>
    let p := tierLoop resolve page episode_code episode_text base_url priority_order
    match p.1 with
    | some t => (some t, p.2)
    | none =>
      let download_url := base_url ++ first
      let cf := extract_series_format_category page.text
      let normalized := normalize_format (some cf.2)
      match resolve download_url with
      | some final_link =>
        (some (mkFastTorrent episode_code episode_text normalized cf.1 final_link),
          p.2 ++ [download_url])
      | none => (none, p.2 ++ [download_url])

/-- Stable ascending insertion by `episode_code`: models
`torrents.sort(key=lambda x: x['episode_code'])`. -/
def insertByCode (t : FastTorrent) : List FastTorrent → List FastTorrent
  | [] => [t]
  | h :: rest =>
    if h.episode_code < t.episode_code then h :: insertByCode t rest
    else t :: h :: rest

def sortByCode (l : List FastTorrent) : List FastTorrent := l.foldr insertByCode []

/-- The loop of `_get_episodes` of the fast scraper over the episode links of
a season page.  `pages` abstracts fetching an episode page by its url; the
second component is the trace of resolved urls. -/
def episodesLoop (resolve : String → Option String) (pages : String → EpisodePage)
    (start_episode end_episode : Option String) (base_url : String) :
    List EpLink → List FastTorrent × List String
  | [] => ([], [])
  | l :: ls =>
    let rest := episodesLoop resolve pages start_episode end_episode base_url ls
    match searchL matchSEUnb l.text.data with
    | none => rest
    | some g =>
      let episode_code := "S" ++ zfill 2 (String.mk g.1) ++ "E" ++ zfill 2 (String.mk g.2)
      if is_in_range episode_code start_episode end_episode then
        let b := get_best_torrent_for_episode resolve (pages (base_url ++ l.href))
          episode_code l.text base_url priorityOrderFast
        match b.1 with
        | some t => (t :: rest.1, b.2 ++ rest.2)
        | none => (rest.1, b.2 ++ rest.2)
      else rest

/-- Models `_get_episodes` of the fast scraper: the link loop, then the sort
by episode code. -/
def get_episodes (resolve : String → Option String) (pages : String → EpisodePage)
    (episode_links : List EpLink) (start_episode end_episode : Option String)
    (base_url : String) : List FastTorrent × List String :=
  let p := episodesLoop resolve pages start_episode end_episode base_url episode_links
  (sortByCode p.1, p.2)

/-- Models `_extract_season_from_episode`:
`re.match(r'(?:HD|SD)?S(\d+)E\d+', code.upper())`, raising on no match. -/
def extract_season_from_episode (episode_code : String) : Except String Nat :=
  if episode_code.isEmpty then
    Except.error "El código de episodio no puede estar vacío"
  else
    match matchTagSE (pyUpper episode_code).data with
    | none =>
      Except.error ("Formato de episodio inválido: " ++ episode_code ++
        ". Debe ser SxxExx o [HD|SD]SxxExx")
    | some g => Except.ok (natOfDigits g.1)

/-- Models `scrape` of the fast scraper, whose validation raises
`ValueError` (the `Except.error` outcome) instead of returning a structured
error.  `series_url` abstracts `_search_series`, `episodes_of` the per-season
`_get_episodes` call. -/
def scrape (series_url : Option String) (episodes_of : Nat → List FastTorrent)
    (criteria : Criteria) : Except String FastScrapeResult :=
  if !(truthyStr criteria.base_url && truthyStr criteria.serie_name &&
       truthyStr criteria.start_episode && truthyStr criteria.end_episode) then
    Except.error "Se requieren 'base_url', 'serie_name', 'start_episode' y 'end_episode'"
  else
    match extract_season_from_episode (criteria.start_episode.getD "") with
    | Except.error e => Except.error e
    | Except.ok start_season =>
      match (if truthyStr criteria.end_episode then
               extract_season_from_episode (criteria.end_episode.getD "")
             else Except.ok start_season) with
      | Except.error e => Except.error e
      | Except.ok end_season =>
        match series_url with
        | none =>
          Except.ok ⟨[], 0, criteria.serie_name.getD "", criteria.base_url.getD ""⟩
        | some _ =>
          let torrents :=
            (List.range' start_season (end_season + 1 - start_season)).flatMap episodes_of
          let sorted := sortByCode torrents
          Except.ok ⟨sorted, sorted.length, criteria.serie_name.getD "",
            criteria.base_url.getD ""⟩

/-- Specification-side selector: the resolution of the first link whose
resolution succeeds, scanning in page order. -/
def firstResolved (resolve : String → Option String) (base_url : String) :
    List String → Option String
  | [] => none
  | l :: ls =>
    match resolve (base_url ++ l) with
    | some r => some r
    | none => firstResolved resolve base_url ls

end DontorrentFast

/-! ## Specification-side helpers for the claims -/

/-- An episode code of the claimed shape: an optional `HD`/`SD` tag followed
by `S`, two digits, `E`, two digits. -/
def codeStr (tag : String) (a b c d : Char) : String :=
  tag ++ "S" ++ String.mk [a, b] ++ "E" ++ String.mk [c, d]

/-- The season or episode number a two-digit field denotes. -/
def val2 (a b : Char) : Nat := natOfDigits [a, b]

/-- A digest that never starts with a zero character, for runs of the
proof-of-work solvers that cannot succeed. -/
def constDigest : String → String := fun _ => "ff"

/-- The sort key of the exhaustive policy, as `scrape` computes it per
torrent. -/
def prio (t : Torrent) : Nat := Dontorrent.get_format_priority (some t.format)

/-- The page-level normalized format of the fast scraper, as the early-exit
loop computes it for every download link of one episode page. -/
def pageNorm (page : EpisodePage) : String :=
  DontorrentFast.normalize_format (some (DontorrentFast.extract_series_format_category page.text).2)

/-- The page-level category of the fast scraper. -/
def pageCat (page : EpisodePage) : String :=
  (DontorrentFast.extract_series_format_category page.text).1

/-- The canonical code the fast crawler builds from a matched episode link. -/
def paddedCode (g : List Char × List Char) : String :=
  "S" ++ zfill 2 (String.mk g.1) ++ "E" ++ zfill 2 (String.mk g.2)

/-- A table row of the exhaustive crawler that reaches the resolver with
content id `cid`: it has at least two cells, its first cell's stripped text
yields an episode code, the tagged code passes the format invariant and —
decisively — the range filter, and its anchor carries `cid`. -/
def rowEligible (episode_format start_episode end_episode : String) (row : Row)
    (cid : String) : Prop :=
  ∃ c0 c1 cs code, row.cells = c0 :: c1 :: cs ∧
    extract_episode_code (pyStrip c0) = some code ∧
    is_valid_status_format (episode_format ++ code) = true ∧
    Dontorrent.is_in_range (episode_format ++ code) start_episode end_episode = true ∧
    row.content_id = some cid

/-- Scenario data: episode S01E01 as a 720p candidate. -/
def cand720 : Torrent := ⟨"HDS01E01", "720p", "Serie", "Serie", "l720", "HDS01E01"⟩

/-- Scenario data: the same episode S01E01 as a 4K candidate. -/
def cand4K : Torrent := ⟨"HDS01E01", "4K", "Serie", "Serie", "l4K", "HDS01E01"⟩

/-- Scenario data: a matched series. -/
def serieDemo : SerieData := ⟨"Serie", "Serie", "u", "h"⟩

/-- Scenario data: a complete criteria dictionary. -/
def critDemo : Criteria := ⟨some "b", some "Serie", some "S01E01", some "S01E02", none⟩

/-! ## Basic lemmas -/

lemma data_append (s t : String) : (s ++ t).data = s.data ++ t.data := rfl

lemma data_mk (l : List Char) : (String.mk l).data = l := rfl

lemma beq_false_of_digit {c d : Char} (hc : isAsciiDigit c = true)
    (hd : isAsciiDigit d = false) : (c == d) = false := by
  cases h : c == d
  · rfl
  · have he := eq_of_beq h
    subst he
    rw [hc] at hd
    cases hd

/-! ## Proof-of-work lemmas -/

lemma powLoop_none (hexdigest : String → String) (challenge : String) (difficulty : Nat)
    (h : ∀ n, powCheck hexdigest challenge difficulty n = false) :
    ∀ fuel nonce, Dontorrent.powLoop hexdigest challenge difficulty nonce fuel = none := by
  intro fuel
  induction fuel with
  | zero => intro nonce; rfl
  | succ k ih =>
    intro nonce
    simp only [Dontorrent.powLoop, h nonce, if_false, Bool.false_eq_true]
    exact ih (nonce + 1)

lemma powLoop_spec (hexdigest : String → String) (challenge : String) (difficulty : Nat) :
    ∀ fuel nonce,
      (Dontorrent.powLoop hexdigest challenge difficulty nonce fuel = none ∧
        ∀ k, k < fuel → powCheck hexdigest challenge difficulty (nonce + k) = false) ∨
      (∃ n, Dontorrent.powLoop hexdigest challenge difficulty nonce fuel = some n ∧
        nonce ≤ n ∧ n < nonce + fuel ∧
        powCheck hexdigest challenge difficulty n = true ∧
        ∀ m, nonce ≤ m → m < n → powCheck hexdigest challenge difficulty m = false) := by
  intro fuel
  induction fuel with
  | zero =>
    intro nonce
    exact Or.inl ⟨rfl, fun k hk => absurd hk (Nat.not_lt_zero k)⟩
  | succ f ih =>
    intro nonce
    cases h : powCheck hexdigest challenge difficulty nonce with
    | true =>
      refine Or.inr ⟨nonce, ?_, Nat.le_refl _, by omega, h, fun m h1 h2 => by omega⟩
      simp [Dontorrent.powLoop, h]
    | false =>
      have hstep : Dontorrent.powLoop hexdigest challenge difficulty nonce (f + 1) =
          Dontorrent.powLoop hexdigest challenge difficulty (nonce + 1) f := by
        simp [Dontorrent.powLoop, h]
      rcases ih (nonce + 1) with ⟨hnone, hall⟩ | ⟨n, hsome, h1, h2, h3, h4⟩
      · refine Or.inl ⟨by rw [hstep, hnone], fun k hk => ?_⟩
        cases k with
        | zero => simpa using h
        | succ k' =>
          have := hall k' (by omega)
          have harg : nonce + 1 + k' = nonce + (k' + 1) := by omega
          rwa [harg] at this
      · refine Or.inr ⟨n, by rw [hstep, hsome], by omega, by omega, h3, fun m hm1 hm2 => ?_⟩
        rcases Nat.eq_or_lt_of_le hm1 with he | hl
        · exact he ▸ h
        · exact h4 m hl hm2

lemma powLoopFast_elim (hexdigest : String → String) (challenge : String) (difficulty : Nat) :
    ∀ fuel nonce, DontorrentFast.powLoopFast hexdigest challenge difficulty nonce fuel =
      (Dontorrent.powLoop hexdigest challenge difficulty nonce fuel).elim (-1) Int.ofNat := by
  intro fuel
  induction fuel with
  | zero => intro nonce; rfl
  | succ f ih =>
    intro nonce
    cases h : powCheck hexdigest challenge difficulty nonce with
    | true => simp [DontorrentFast.powLoopFast, Dontorrent.powLoop, h]
    | false => simp [DontorrentFast.powLoopFast, Dontorrent.powLoop, h, ih (nonce + 1)]

lemma constDigest_check : ∀ n, powCheck constDigest "c" 4 n = false := fun _ => rfl

/-! ## Normalizer range lemmas -/

lemma normalize_range_ex (x : Option String) :
    Dontorrent.normalize_format x = "4K" ∨ Dontorrent.normalize_format x = "1080p" ∨
    Dontorrent.normalize_format x = "720p" ∨ Dontorrent.normalize_format x = "SD" := by
  unfold Dontorrent.normalize_format
  split
  · decide
  · simp only []
    repeat' split
    all_goals decide

lemma normalize_range_fast (x : Option String) :
    DontorrentFast.normalize_format x = "4K" ∨ DontorrentFast.normalize_format x = "1080p" ∨
    DontorrentFast.normalize_format x = "720p" ∨ DontorrentFast.normalize_format x = "SD" := by
  unfold DontorrentFast.normalize_format
  split
  · decide
  · simp only []
    repeat' split
    all_goals decide

/-! ## Selection lemmas (exhaustive policy) -/

lemma insertDesc_perm (t : Torrent) (l : List Torrent) :
    List.Perm (Dontorrent.insertDesc t l) (t :: l) := by
  induction l with
  | nil => exact List.Perm.refl _
  | cons h tl ih =>
    unfold Dontorrent.insertDesc
    split
    · exact (ih.cons h).trans (List.Perm.swap t h tl)
    · exact List.Perm.refl _

lemma sortTorrents_perm (l : List Torrent) :
    List.Perm (Dontorrent.sortTorrents l) l := by
  induction l with
  | nil => exact List.Perm.refl _
  | cons h tl ih =>
    exact (insertDesc_perm h (Dontorrent.sortTorrents tl)).trans (ih.cons h)

lemma insertDesc_pairwise (t : Torrent) (l : List Torrent)
    (h : l.Pairwise (fun a b => prio b ≤ prio a)) :
    (Dontorrent.insertDesc t l).Pairwise (fun a b => prio b ≤ prio a) := by
  induction l with
  | nil => simp [Dontorrent.insertDesc]
  | cons hd tl ih =>
    rcases List.pairwise_cons.mp h with ⟨hhd, htl⟩
    unfold Dontorrent.insertDesc
    split
    case isTrue hcond =>
      refine List.pairwise_cons.mpr ⟨fun x hx => ?_, ih htl⟩
      rcases List.mem_cons.mp ((insertDesc_perm t tl).mem_iff.mp hx) with rfl | hx'
      · exact Nat.le_of_lt hcond
      · exact hhd x hx'
    case isFalse hcond =>
      refine List.pairwise_cons.mpr ⟨fun x hx => ?_, h⟩
      rcases List.mem_cons.mp hx with rfl | hx'
      · exact Nat.le_of_not_lt hcond
      · exact Nat.le_trans (hhd x hx') (Nat.le_of_not_lt hcond)

lemma sortTorrents_pairwise (l : List Torrent) :
    (Dontorrent.sortTorrents l).Pairwise (fun a b => prio b ≤ prio a) := by
  induction l with
  | nil => simp [Dontorrent.sortTorrents]
  | cons h tl ih => exact insertDesc_pairwise h (Dontorrent.sortTorrents tl) ih

lemma splitUnique_perm (l : List Torrent) :
    ∀ seen, List.Perm ((Dontorrent.splitUnique l seen).1 ++ (Dontorrent.splitUnique l seen).2) l := by
  induction l with
  | nil => intro seen; exact List.Perm.refl _
  | cons t tl ih =>
    intro seen
    cases hc : seen.contains t.status with
    | true =>
      simp only [Dontorrent.splitUnique, hc, if_true]
      exact List.perm_middle.trans ((ih seen).cons t)
    | false =>
      simp only [Dontorrent.splitUnique, hc, Bool.false_eq_true, if_false]
      exact (ih (t.status :: seen)).cons t

lemma splitUnique_nodup (l : List Torrent) :
    ∀ seen, (((Dontorrent.splitUnique l seen).1.map Torrent.status).Nodup ∧
      ∀ t ∈ (Dontorrent.splitUnique l seen).1, seen.contains t.status = false) := by
  induction l with
  | nil => intro seen; simp [Dontorrent.splitUnique]
  | cons t tl ih =>
    intro seen
    cases hc : seen.contains t.status with
    | true =>
      simp only [Dontorrent.splitUnique, hc, if_true]
      exact ih seen
    | false =>
      simp only [Dontorrent.splitUnique, hc, Bool.false_eq_true, if_false]
      rcases ih (t.status :: seen) with ⟨hnd, hout⟩
      refine ⟨List.nodup_cons.mpr ⟨?_, hnd⟩, fun u hu => ?_⟩
      · intro hmem
        rcases List.mem_map.mp hmem with ⟨u, hu, he⟩
        have := hout u hu
        simp [List.contains_cons, he] at this
      · rcases List.mem_cons.mp hu with rfl | hu'
        · exact hc
        · have := hout u hu'
          simp only [List.contains_cons, Bool.or_eq_false_iff] at this
          exact this.2

lemma splitUnique_covers (l : List Torrent) :
    ∀ seen, ∀ t ∈ l, seen.contains t.status = true ∨
      t.status ∈ (Dontorrent.splitUnique l seen).1.map Torrent.status := by
  induction l with
  | nil => intro seen t ht; cases ht
  | cons u tl ih =>
    intro seen t ht
    cases hc : seen.contains u.status with
    | true =>
      simp only [Dontorrent.splitUnique, hc, if_true]
      rcases List.mem_cons.mp ht with rfl | ht'
      · exact Or.inl hc
      · exact ih seen t ht'
    | false =>
      simp only [Dontorrent.splitUnique, hc, Bool.false_eq_true, if_false]
      rcases List.mem_cons.mp ht with rfl | ht'
      · exact Or.inr (List.mem_map.mpr ⟨t, List.mem_cons_self _ _, rfl⟩)
      · rcases ih (u.status :: seen) t ht' with hin | hin
        · simp only [List.contains_cons, Bool.or_eq_true_iff] at hin
          rcases hin with heq | hse
          · exact Or.inr (by
              have : t.status = u.status := eq_of_beq heq
              exact List.mem_map.mpr ⟨u, List.mem_cons_self _ _, this.symm⟩)
          · exact Or.inl hse
        · exact Or.inr (by rw [List.map_cons]; exact List.mem_cons_of_mem _ hin)

lemma splitUnique_dominated (l : List Torrent) :
    ∀ seen, l.Pairwise (fun a b => prio b ≤ prio a) →
      ∀ y ∈ (Dontorrent.splitUnique l seen).2, seen.contains y.status = true ∨
        ∃ x ∈ (Dontorrent.splitUnique l seen).1, x.status = y.status ∧ prio y ≤ prio x := by
  induction l with
  | nil => intro seen _ y hy; cases hy
  | cons t tl ih =>
    intro seen hp y hy
    rcases List.pairwise_cons.mp hp with ⟨hhd, htl⟩
    cases hc : seen.contains t.status with
    | true =>
      simp only [Dontorrent.splitUnique, hc, if_true] at hy ⊢
      rcases List.mem_cons.mp hy with rfl | hy'
      · exact Or.inl hc
      · exact ih seen htl y hy'
    | false =>
      simp only [Dontorrent.splitUnique, hc, Bool.false_eq_true, if_false] at hy ⊢
      rcases ih (t.status :: seen) htl y hy with hin | ⟨x, hx, hxs, hxp⟩
      · simp only [List.contains_cons, Bool.or_eq_true_iff] at hin
        rcases hin with heq | hse
        · refine Or.inr ⟨t, List.mem_cons_self _ _, (eq_of_beq heq).symm, ?_⟩
          have hymem : y ∈ tl := by
            have h1 : y ∈ (Dontorrent.splitUnique tl (t.status :: seen)).1 ++
                (Dontorrent.splitUnique tl (t.status :: seen)).2 :=
              List.mem_append.mpr (Or.inr hy)
            exact (splitUnique_perm tl (t.status :: seen)).mem_iff.mp h1
          exact hhd y hymem
        · exact Or.inl hse
      · exact Or.inr ⟨x, List.mem_cons_of_mem t hx, hxs, hxp⟩

/-! ## Episode-code parsing lemmas -/

lemma parse_SE_core {a b c d : Char} (ha : isAsciiDigit a = true) (hb : isAsciiDigit b = true)
    (hc : isAsciiDigit c = true) (hd : isAsciiDigit d = true) :
    matchSEUnb ('S' :: a :: b :: 'E' :: c :: d :: []) = some ([a, b], [c, d]) := by
  simp +decide [matchSEUnb, takeDigits, ha, hb, hc, hd]

lemma codeStr_data_HD (a b c d : Char) :
    (codeStr "HD" a b c d).data = 'H' :: 'D' :: 'S' :: a :: b :: 'E' :: c :: d :: [] := rfl

lemma stripTag_code_HD (a b c d : Char) :
    stripTag (codeStr "HD" a b c d) = String.mk ('S' :: a :: b :: 'E' :: c :: d :: []) := rfl

lemma stripTag_code_SD (a b c d : Char) :
    stripTag (codeStr "SD" a b c d) = String.mk ('S' :: a :: b :: 'E' :: c :: d :: []) := rfl

lemma stripTag_code_none {a b c d : Char} (ha : isAsciiDigit a = true) :
    stripTag (codeStr "" a b c d) = codeStr "" a b c d := by
  have hD : (a == 'D') = false := beq_false_of_digit ha (by decide)
  simp +decide [stripTag,
    (show (codeStr "" a b c d).data = 'S' :: a :: b :: 'E' :: c :: d :: [] from rfl), hD]

lemma searchSE_codeStr {t : String} (ht : t = "" ∨ t = "HD" ∨ t = "SD") {a b c d : Char}
    (ha : isAsciiDigit a = true) (hb : isAsciiDigit b = true)
    (hc : isAsciiDigit c = true) (hd : isAsciiDigit d = true) :
    searchL matchSEUnb (stripTag (codeStr t a b c d)).data = some ([a, b], [c, d]) ∧
    searchL matchTagSE (codeStr t a b c d).data = some ([a, b], [c, d]) := by
  have hcore := parse_SE_core ha hb hc hd
  have haD : (a == 'D') = false := beq_false_of_digit ha (by decide)
  have had : (a == 'd') = false := beq_false_of_digit ha (by decide)
  rcases ht with rfl | rfl | rfl
  · constructor
    · rw [stripTag_code_none ha]
      simp +decide [searchL, codeStr, hcore]
    · simp +decide [searchL, matchTagSE,
        (show (codeStr "" a b c d).data = 'S' :: a :: b :: 'E' :: c :: d :: [] from rfl),
        haD, had, hcore]
  · constructor
    · rw [stripTag_code_HD]
      simp [searchL, hcore]
    · simp +decide [searchL, matchTagSE, codeStr_data_HD, hcore]
  · constructor
    · rw [stripTag_code_SD]
      simp [searchL, hcore]
    · simp +decide [searchL, matchTagSE,
        (show (codeStr "SD" a b c d).data = 'S' :: 'D' :: 'S' :: a :: b :: 'E' :: c :: d :: []
          from rfl), hcore]

lemma val2_eq (x y : Char) : natOfDigits [x, y] = val2 x y := rfl

lemma matchSEb_11 {a c : Char} (ha : isAsciiDigit a = true) (hc : isAsciiDigit c = true) :
    matchSEb ('S' :: a :: 'E' :: c :: []) = some ([a], [c]) := by
  simp +decide [matchSEb, takeExactDigits, matchETail, ha, hc]

lemma matchSEb_21 {a b c : Char} (ha : isAsciiDigit a = true) (hb : isAsciiDigit b = true)
    (hc : isAsciiDigit c = true) :
    matchSEb ('S' :: a :: b :: 'E' :: c :: []) = some ([a, b], [c]) := by
  simp +decide [matchSEb, takeExactDigits, matchETail, ha, hb, hc]

lemma matchSEb_12 {a c d : Char} (ha : isAsciiDigit a = true) (hc : isAsciiDigit c = true)
    (hd : isAsciiDigit d = true) :
    matchSEb ('S' :: a :: 'E' :: c :: d :: []) = some ([a], [c, d]) := by
  simp +decide [matchSEb, takeExactDigits, matchETail, ha, hc, hd]

lemma matchSEb_22 {a b c d : Char} (ha : isAsciiDigit a = true) (hb : isAsciiDigit b = true)
    (hc : isAsciiDigit c = true) (hd : isAsciiDigit d = true) :
    matchSEb ('S' :: a :: b :: 'E' :: c :: d :: []) = some ([a, b], [c, d]) := by
  simp +decide [matchSEb, takeExactDigits, matchETail, ha, hb, hc, hd]

lemma matchSEb_23 {a b c d x : Char} (ha : isAsciiDigit a = true) (hb : isAsciiDigit b = true)
    (hc : isAsciiDigit c = true) (hd : isAsciiDigit d = true) (hx : isAsciiDigit x = true) :
    matchSEb ('S' :: a :: b :: 'E' :: c :: d :: x :: []) = some ([a, b], [c, d, x]) := by
  simp +decide [matchSEb, takeExactDigits, matchETail, ha, hb, hc, hd, hx]

lemma matchXb_22 {a b c d : Char} (ha : isAsciiDigit a = true) (hb : isAsciiDigit b = true)
    (hc : isAsciiDigit c = true) (hd : isAsciiDigit d = true) :
    matchXb (a :: b :: 'x' :: c :: d :: []) = some ([a, b], [c, d]) := by
  simp +decide [matchXb, takeExactDigits, matchXTail, ha, hb, hc, hd]

lemma searchSEb_none_x {a b c d : Char} (ha : isAsciiDigit a = true) (hb : isAsciiDigit b = true)
    (hc : isAsciiDigit c = true) (hd : isAsciiDigit d = true) :
    searchL matchSEb (a :: b :: 'x' :: c :: d :: []) = none := by
  have haS : (a == 'S') = false := beq_false_of_digit ha (by decide)
  have has : (a == 's') = false := beq_false_of_digit ha (by decide)
  have hbS : (b == 'S') = false := beq_false_of_digit hb (by decide)
  have hbs : (b == 's') = false := beq_false_of_digit hb (by decide)
  have hcS : (c == 'S') = false := beq_false_of_digit hc (by decide)
  have hcs : (c == 's') = false := beq_false_of_digit hc (by decide)
  have hdS : (d == 'S') = false := beq_false_of_digit hd (by decide)
  have hds : (d == 's') = false := beq_false_of_digit hd (by decide)
  simp +decide [searchL, matchSEb, haS, has, hbS, hbs, hcS, hcs, hdS, hds]

/-! ## Early-exit selection lemmas (fast policy) -/

lemma scanTier_nomatch (resolve : String → Option String) (page : EpisodePage)
    (code text base target : String) (h : (pyUpper (pageNorm page) == target) = false) :
    ∀ links, DontorrentFast.scanTier resolve page code text base target links = (none, []) := by
  intro links
  unfold pageNorm at h
  induction links with
  | nil => rfl
  | cons l ls ih => simp [DontorrentFast.scanTier, h, ih]

lemma scanTier_match (resolve : String → Option String) (page : EpisodePage)
    (code text base target : String) (h : (pyUpper (pageNorm page) == target) = true) :
    ∀ links, (DontorrentFast.scanTier resolve page code text base target links).1 =
      (DontorrentFast.firstResolved resolve base links).map
        (fun r => DontorrentFast.mkFastTorrent code text (pageNorm page) (pageCat page) r) := by
  intro links
  unfold pageNorm at h
  induction links with
  | nil => rfl
  | cons l ls ih =>
    simp only [DontorrentFast.scanTier, DontorrentFast.firstResolved, h, if_true]
    cases hr : resolve (base ++ l) with
    | some r => simp [hr, pageNorm, pageCat]
    | none => simp [hr, ih]

lemma scanTier_match_trace (resolve : String → Option String) (page : EpisodePage)
    (code text base target : String) (h : (pyUpper (pageNorm page) == target) = true)
    (hres : ∀ u, (resolve u).isSome = true) (l : String) (ls : List String) :
    DontorrentFast.scanTier resolve page code text base target (l :: ls) =
      (some (DontorrentFast.mkFastTorrent code text (pageNorm page) (pageCat page)
        ((resolve (base ++ l)).getD "")), [base ++ l]) := by
  unfold pageNorm at h
  cases hr : resolve (base ++ l) with
  | some r => simp [DontorrentFast.scanTier, h, hr, pageNorm, pageCat]
  | none =>
    have := hres (base ++ l)
    rw [hr] at this
    cases this

lemma tierLoop_skip (resolve : String → Option String) (page : EpisodePage)
    (code text base target : String) (ts : List String)
    (h : (pyUpper (pageNorm page) == target) = false) :
    DontorrentFast.tierLoop resolve page code text base (target :: ts) =
      DontorrentFast.tierLoop resolve page code text base ts := by
  simp [DontorrentFast.tierLoop, scanTier_nomatch resolve page code text base target h]

lemma tierLoop_nomatch_all (resolve : String → Option String) (page : EpisodePage)
    (code text base : String) :
    ∀ ts, (∀ target ∈ ts, (pyUpper (pageNorm page) == target) = false) →
      DontorrentFast.tierLoop resolve page code text base ts = (none, []) := by
  intro ts
  induction ts with
  | nil => intro _; rfl
  | cons t ts ih =>
    intro h
    rw [tierLoop_skip resolve page code text base t ts (h t (List.mem_cons_self t ts))]
    exact ih fun u hu => h u (List.mem_cons_of_mem t hu)

lemma tierLoop_decomp_result (resolve : String → Option String) (page : EpisodePage)
    (code text base : String) (ts1 ts2 : List String)
    (hpre : ∀ target ∈ ts1, (pyUpper (pageNorm page) == target) = false)
    (hpost : ∀ target ∈ ts2, (pyUpper (pageNorm page) == target) = false) :
    (DontorrentFast.tierLoop resolve page code text base
        (ts1 ++ pyUpper (pageNorm page) :: ts2)).1 =
      (DontorrentFast.firstResolved resolve base page.download_links).map
        (fun r => DontorrentFast.mkFastTorrent code text (pageNorm page) (pageCat page) r) := by
  induction ts1 with
  | nil =>
    simp only [List.nil_append]
    have hm := scanTier_match resolve page code text base (pyUpper (pageNorm page))
      (beq_self_eq_true _) page.download_links
    cases hfr : DontorrentFast.firstResolved resolve base page.download_links with
    | some r =>
      rw [hfr] at hm
      simp [DontorrentFast.tierLoop, hm]
    | none =>
      rw [hfr] at hm
      simp only [Option.map_none'] at hm
      simp [DontorrentFast.tierLoop, hm, hfr,
        tierLoop_nomatch_all resolve page code text base ts2 hpost]
  | cons t ts1' ih =>
    rw [List.cons_append, tierLoop_skip resolve page code text base t _
      (hpre t (List.mem_cons_self t ts1'))]
    exact ih fun u hu => hpre u (List.mem_cons_of_mem t hu)

lemma tierLoop_decomp_success (resolve : String → Option String) (page : EpisodePage)
    (code text base : String) (ts1 ts2 : List String) (l : String) (ls : List String)
    (hdl : page.download_links = l :: ls)
    (hpre : ∀ target ∈ ts1, (pyUpper (pageNorm page) == target) = false)
    (hres : ∀ u, (resolve u).isSome = true) :
    DontorrentFast.tierLoop resolve page code text base
        (ts1 ++ pyUpper (pageNorm page) :: ts2) =
      (some (DontorrentFast.mkFastTorrent code text (pageNorm page) (pageCat page)
        ((resolve (base ++ l)).getD "")), [base ++ l]) := by
  induction ts1 with
  | nil =>
    have hm := scanTier_match_trace resolve page code text base (pyUpper (pageNorm page))
      (beq_self_eq_true _) hres l ls
    simp [DontorrentFast.tierLoop, hdl, hm]
  | cons t ts1' ih =>
    rw [List.cons_append, tierLoop_skip resolve page code text base t _
      (hpre t (List.mem_cons_self t ts1'))]
    exact ih fun u hu => hpre u (List.mem_cons_of_mem t hu)

lemma priority_decomp (page : EpisodePage) :
    ∃ ts1 ts2, DontorrentFast.priorityOrderFast = ts1 ++ pyUpper (pageNorm page) :: ts2 ∧
      (∀ target ∈ ts1, (pyUpper (pageNorm page) == target) = false) ∧
      (∀ target ∈ ts2, (pyUpper (pageNorm page) == target) = false) := by
  have h := normalize_range_fast
    (some (DontorrentFast.extract_series_format_category page.text).2)
  have hpn : pageNorm page = DontorrentFast.normalize_format
      (some (DontorrentFast.extract_series_format_category page.text).2) := rfl
  rw [← hpn] at h
  rcases h with h | h | h | h
  · exact ⟨["720P", "1080P"], ["SD"], by rw [h]; rfl, by rw [h]; decide, by rw [h]; decide⟩
  · exact ⟨["720P"], ["4K", "SD"], by rw [h]; rfl, by rw [h]; decide, by rw [h]; decide⟩
  · exact ⟨[], ["1080P", "4K", "SD"], by rw [h]; rfl, by rw [h]; decide, by rw [h]; decide⟩
  · exact ⟨["720P", "1080P", "4K"], [], by rw [h]; rfl, by rw [h]; decide, by rw [h]; decide⟩

lemma firstResolved_none (resolve : String → Option String) (base : String) :
    ∀ links, DontorrentFast.firstResolved resolve base links = none →
      ∀ u ∈ links, resolve (base ++ u) = none := by
  intro links
  induction links with
  | nil => intro _ u hu; cases hu
  | cons l ls ih =>
    intro h u hu
    rcases List.mem_cons.mp hu with rfl | hu'
    · cases hr : resolve (base ++ u) with
      | none => rfl
      | some r => rw [DontorrentFast.firstResolved, hr] at h; cases h
    · refine ih ?_ u hu'
      cases hr : resolve (base ++ l) with
      | none => rwa [DontorrentFast.firstResolved, hr] at h
      | some r => rw [DontorrentFast.firstResolved, hr] at h; cases h

lemma get_best_result (resolve : String → Option String) (page : EpisodePage)
    (code text base : String) :
    (DontorrentFast.get_best_torrent_for_episode resolve page code text base
        DontorrentFast.priorityOrderFast).1 =
      (DontorrentFast.firstResolved resolve base page.download_links).map
        (fun r => DontorrentFast.mkFastTorrent code text (pageNorm page) (pageCat page) r) := by
  rcases priority_decomp page with ⟨ts1, ts2, hdec, hpre, hpost⟩
  have hres := tierLoop_decomp_result resolve page code text base ts1 ts2 hpre hpost
  rw [← hdec] at hres
  cases hdl : page.download_links with
  | nil =>
    rw [hdl] at hres
    simp [DontorrentFast.get_best_torrent_for_episode, hdl, DontorrentFast.firstResolved]
  | cons l ls =>
    rw [hdl] at hres
    cases hfr : DontorrentFast.firstResolved resolve base (l :: ls) with
    | some r =>
      rw [hfr] at hres
      simp only [Option.map_some'] at hres
      simp [DontorrentFast.get_best_torrent_for_episode, hdl, hres, hfr, pageNorm, pageCat]
    | none =>
      rw [hfr] at hres
      simp only [Option.map_none'] at hres
      have hl : resolve (base ++ l) = none :=
        firstResolved_none resolve base (l :: ls) hfr l (List.mem_cons_self l ls)
      simp [DontorrentFast.get_best_torrent_for_episode, hdl, hres, hfr, hl]

lemma get_best_success (resolve : String → Option String) (page : EpisodePage)
    (code text base : String) (l : String) (ls : List String)
    (hdl : page.download_links = l :: ls) (hres : ∀ u, (resolve u).isSome = true) :
    DontorrentFast.get_best_torrent_for_episode resolve page code text base
        DontorrentFast.priorityOrderFast =
      (some (DontorrentFast.mkFastTorrent code text (pageNorm page) (pageCat page)
        ((resolve (base ++ l)).getD "")), [base ++ l]) := by
  rcases priority_decomp page with ⟨ts1, ts2, hdec, hpre, _⟩
  have ht := tierLoop_decomp_success resolve page code text base ts1 ts2 l ls hdl hpre hres
  rw [← hdec] at ht
  simp [DontorrentFast.get_best_torrent_for_episode, hdl, ht]

/-! ## Crawler trace lemmas -/

lemma crawler_trace_ex (resolve : String → Option String) (episode_format format_original : String)
    (serie : SerieData) (base_url start_episode end_episode : String) :
    ∀ rows : List Row,
      ∀ cid ∈ (Dontorrent.get_episodes resolve episode_format format_original serie base_url
        start_episode end_episode rows).2,
      ∃ row ∈ rows, rowEligible episode_format start_episode end_episode row cid := by
  intro rows
  induction rows with
  | nil => intro cid h; cases h
  | cons row rest ih =>
    intro cid hcid
    have hlift : ∀ h : cid ∈ (Dontorrent.get_episodes resolve episode_format format_original
        serie base_url start_episode end_episode rest).2,
        ∃ r ∈ row :: rest, rowEligible episode_format start_episode end_episode r cid := by
      intro h
      rcases ih cid h with ⟨r, hr, he⟩
      exact ⟨r, List.mem_cons_of_mem row hr, he⟩
    rcases hc : row.cells with _ | ⟨c0, _ | ⟨c1, cs⟩⟩
    · simp only [Dontorrent.get_episodes, hc] at hcid
      exact hlift hcid
    · simp only [Dontorrent.get_episodes, hc] at hcid
      exact hlift hcid
    · rcases he : extract_episode_code (pyStrip c0) with _ | code
      · simp only [Dontorrent.get_episodes, hc, he] at hcid
        exact hlift hcid
      · rcases hv : is_valid_status_format (episode_format ++ code) with _ | _
        · simp only [Dontorrent.get_episodes, hc, he, hv] at hcid
          exact hlift hcid
        · rcases hr : Dontorrent.is_in_range (episode_format ++ code) start_episode end_episode
            with _ | _
          · simp only [Dontorrent.get_episodes, hc, he, hv, hr] at hcid
            exact hlift hcid
          · rcases hid : row.content_id with _ | cid'
            · simp only [Dontorrent.get_episodes, hc, he, hv, hr, hid] at hcid
              exact hlift hcid
            · rcases hres : resolve cid' with _ | url
              · simp only [Dontorrent.get_episodes, hc, he, hv, hr, hid, hres] at hcid
                rcases List.mem_cons.mp hcid with rfl | h
                · exact ⟨row, List.mem_cons_self _ _, c0, c1, cs, code, hc, he, hv, hr, hid⟩
                · exact hlift h
              · simp only [Dontorrent.get_episodes, hc, he, hv, hr, hid, hres] at hcid
                rcases List.mem_cons.mp hcid with rfl | h
                · exact ⟨row, List.mem_cons_self _ _, c0, c1, cs, code, hc, he, hv, hr, hid⟩
                · exact hlift h

lemma crawler_trace_fast_loop (resolve : String → Option String) (pages : String → EpisodePage)
    (start_episode end_episode : Option String) (base_url : String) :
    ∀ links : List EpLink,
      ∀ u ∈ (DontorrentFast.episodesLoop resolve pages start_episode end_episode base_url
        links).2,
      ∃ l ∈ links, ∃ g, searchL matchSEUnb l.text.data = some g ∧
        DontorrentFast.is_in_range (paddedCode g) start_episode end_episode = true ∧
        u ∈ (DontorrentFast.get_best_torrent_for_episode resolve (pages (base_url ++ l.href))
          (paddedCode g) l.text base_url DontorrentFast.priorityOrderFast).2 := by
  intro links
  induction links with
  | nil => intro u h; cases h
  | cons l ls ih =>
    intro u hu
    have hlift : ∀ h : u ∈ (DontorrentFast.episodesLoop resolve pages start_episode end_episode
        base_url ls).2,
        ∃ l' ∈ l :: ls, ∃ g, searchL matchSEUnb l'.text.data = some g ∧
          DontorrentFast.is_in_range (paddedCode g) start_episode end_episode = true ∧
          u ∈ (DontorrentFast.get_best_torrent_for_episode resolve
            (pages (base_url ++ l'.href)) (paddedCode g) l'.text base_url
            DontorrentFast.priorityOrderFast).2 := by
      intro h
      rcases ih u h with ⟨l', hl', hg⟩
      exact ⟨l', List.mem_cons_of_mem l hl', hg⟩
    rcases hs : searchL matchSEUnb l.text.data with _ | g
    · simp only [DontorrentFast.episodesLoop, hs] at hu
      exact hlift hu
    · rcases hr : DontorrentFast.is_in_range (paddedCode g) start_episode end_episode
        with _ | _
      · simp only [DontorrentFast.episodesLoop, hs, paddedCode] at hu
        rw [show ("S" ++ zfill 2 (String.mk g.1) ++ "E" ++ zfill 2 (String.mk g.2)) =
          paddedCode g from rfl, hr] at hu
        simp only [Bool.false_eq_true, if_false] at hu
        exact hlift hu
      · simp only [DontorrentFast.episodesLoop, hs] at hu
        rw [show ("S" ++ zfill 2 (String.mk g.1) ++ "E" ++ zfill 2 (String.mk g.2)) =
          paddedCode g from rfl, hr] at hu
        simp only [if_true] at hu
        rcases hb : (DontorrentFast.get_best_torrent_for_episode resolve
            (pages (base_url ++ l.href)) (paddedCode g) l.text base_url
            DontorrentFast.priorityOrderFast).1 with _ | t <;>
          rw [hb] at hu <;>
          simp only [List.mem_append] at hu <;>
          rcases hu with hin | hin
        · exact ⟨l, List.mem_cons_self l ls, g, hs, hr, hin⟩
        · exact hlift hin
        · exact ⟨l, List.mem_cons_self l ls, g, hs, hr, hin⟩
        · exact hlift hin

/-! ## Claim theorems -/

/-- C1 (amended): the fast solver either returns a nonce `n ≤ 10000000` whose
digest has the required zero prefix and which is the least such nonce, or
returns the failure marker `-1` exactly when no nonce up to the ceiling
works; the exhaustive solver, whenever it returns at all, returns the least
valid nonce — but it has no iteration ceiling and no failure outcome. -/
theorem C1_pow_solvers (hexdigest : String → String) (challenge : String)
    (difficulty fuel : Nat) :
    ((∃ n, DontorrentFast.compute_proof_of_work hexdigest challenge difficulty = Int.ofNat n ∧
        n ≤ 10000000 ∧ powCheck hexdigest challenge difficulty n = true ∧
        ∀ m, m < n → powCheck hexdigest challenge difficulty m = false) ∨
      (DontorrentFast.compute_proof_of_work hexdigest challenge difficulty = -1 ∧
        ∀ m, m ≤ 10000000 → powCheck hexdigest challenge difficulty m = false)) ∧
    (∀ n, Dontorrent.compute_proof_of_work hexdigest challenge difficulty fuel = some n →
      powCheck hexdigest challenge difficulty n = true ∧
      ∀ m, m < n → powCheck hexdigest challenge difficulty m = false) := by
  constructor
  · rcases powLoop_spec hexdigest challenge difficulty 10000001 0 with ⟨hn, hall⟩ |
      ⟨n, hs, _, h2, h3, h4⟩
    · refine Or.inr ⟨?_, fun m hm => by simpa using hall m (by omega)⟩
      show DontorrentFast.powLoopFast hexdigest challenge difficulty 0 10000001 = -1
      rw [powLoopFast_elim, hn]
      rfl
    · refine Or.inl ⟨n, ?_, by omega, h3, fun m hm => h4 m (Nat.zero_le m) hm⟩
      show DontorrentFast.powLoopFast hexdigest challenge difficulty 0 10000001 = Int.ofNat n
      rw [powLoopFast_elim, hs]
      rfl
  · intro n hn
    rcases powLoop_spec hexdigest challenge difficulty fuel 0 with ⟨hnone, _⟩ |
      ⟨n', hs, _, _, h3, h4⟩
    · rw [Dontorrent.compute_proof_of_work, hnone] at hn
      cases hn
    · rw [Dontorrent.compute_proof_of_work, hs] at hn
      cases hn
      exact ⟨h3, fun m hm => h4 m (Nat.zero_le m) hm⟩

/-- C1 counterexample: with a digest that never produces a zero prefix, after
10000001 iterations — the very point at which the fast variant has already
returned its distinguishable failure marker `-1` — the exhaustive solver has
produced no outcome at all: its loop has no iteration ceiling and no failure
result, so "hitting the hard iteration ceiling" is not an outcome of that
variant. -/
theorem C1_counterexample :
    Dontorrent.compute_proof_of_work constDigest "c" 4 10000001 = none ∧
    DontorrentFast.compute_proof_of_work constDigest "c" 4 = -1 := by
  constructor
  · exact powLoop_none constDigest "c" 4 constDigest_check 10000001 0
  · show DontorrentFast.powLoopFast constDigest "c" 4 0 10000001 = -1
    rw [powLoopFast_elim, powLoop_none constDigest "c" 4 constDigest_check 10000001 0]
    rfl

/-- C2: for every episode code, start bound and end bound of the shape
optional `HD`/`SD` tag plus `SxxEyy`, both range filters accept the code
exactly when it is not excluded by one of the four claimed conditions:
season below the start's season, season equal to the start's with episode
below the start's, season above the end's season, or season equal to the
end's with episode above the end's; and the S01E10..S02E02 scenario includes
S01E10, S01E11, S02E01, S02E02 and excludes S01E09 and S02E03 in both
variants. -/
theorem C2_range_filter (t1 t2 t3 : String)
    (ht1 : t1 = "" ∨ t1 = "HD" ∨ t1 = "SD") (ht2 : t2 = "" ∨ t2 = "HD" ∨ t2 = "SD")
    (ht3 : t3 = "" ∨ t3 = "HD" ∨ t3 = "SD")
    (a1 a2 b1 b2 c1 c2 d1 d2 e1 e2 f1 f2 : Char)
    (ha1 : isAsciiDigit a1 = true) (ha2 : isAsciiDigit a2 = true)
    (hb1 : isAsciiDigit b1 = true) (hb2 : isAsciiDigit b2 = true)
    (hc1 : isAsciiDigit c1 = true) (hc2 : isAsciiDigit c2 = true)
    (hd1 : isAsciiDigit d1 = true) (hd2 : isAsciiDigit d2 = true)
    (he1 : isAsciiDigit e1 = true) (he2 : isAsciiDigit e2 = true)
    (hf1 : isAsciiDigit f1 = true) (hf2 : isAsciiDigit f2 = true) :
    (Dontorrent.is_in_range (codeStr t1 a1 a2 b1 b2) (codeStr t2 c1 c2 d1 d2)
        (codeStr t3 e1 e2 f1 f2) = true ↔
      ¬(val2 a1 a2 < val2 c1 c2 ∨ (val2 a1 a2 = val2 c1 c2 ∧ val2 b1 b2 < val2 d1 d2) ∨
        val2 e1 e2 < val2 a1 a2 ∨ (val2 a1 a2 = val2 e1 e2 ∧ val2 f1 f2 < val2 b1 b2))) ∧
    (DontorrentFast.is_in_range (codeStr t1 a1 a2 b1 b2) (some (codeStr t2 c1 c2 d1 d2))
        (some (codeStr t3 e1 e2 f1 f2)) = true ↔
      ¬(val2 a1 a2 < val2 c1 c2 ∨ (val2 a1 a2 = val2 c1 c2 ∧ val2 b1 b2 < val2 d1 d2) ∨
        val2 e1 e2 < val2 a1 a2 ∨ (val2 a1 a2 = val2 e1 e2 ∧ val2 f1 f2 < val2 b1 b2))) ∧
    (Dontorrent.is_in_range "S01E10" "S01E10" "S02E02" = true ∧
      Dontorrent.is_in_range "S01E11" "S01E10" "S02E02" = true ∧
      Dontorrent.is_in_range "S02E01" "S01E10" "S02E02" = true ∧
      Dontorrent.is_in_range "S02E02" "S01E10" "S02E02" = true ∧
      Dontorrent.is_in_range "S01E09" "S01E10" "S02E02" = false ∧
      Dontorrent.is_in_range "S02E03" "S01E10" "S02E02" = false) ∧
    (DontorrentFast.is_in_range "S01E10" (some "S01E10") (some "S02E02") = true ∧
      DontorrentFast.is_in_range "S01E11" (some "S01E10") (some "S02E02") = true ∧
      DontorrentFast.is_in_range "S02E01" (some "S01E10") (some "S02E02") = true ∧
      DontorrentFast.is_in_range "S02E02" (some "S01E10") (some "S02E02") = true ∧
      DontorrentFast.is_in_range "S01E09" (some "S01E10") (some "S02E02") = false ∧
      DontorrentFast.is_in_range "S02E03" (some "S01E10") (some "S02E02") = false) := by
  obtain ⟨hP1, hQ1⟩ := searchSE_codeStr ht1 ha1 ha2 hb1 hb2
  obtain ⟨hP2, hQ2⟩ := searchSE_codeStr ht2 hc1 hc2 hd1 hd2
  obtain ⟨hP3, hQ3⟩ := searchSE_codeStr ht3 he1 he2 hf1 hf2
  have htr2 : truthyStr (some (codeStr t2 c1 c2 d1 d2)) = true := by
    rcases ht2 with rfl | rfl | rfl <;> rfl
  have htr3 : truthyStr (some (codeStr t3 e1 e2 f1 f2)) = true := by
    rcases ht3 with rfl | rfl | rfl <;> rfl
  refine ⟨?_, ?_, by decide, by decide⟩
  · unfold Dontorrent.is_in_range
    rw [hP1, hP2, hP3]
    dsimp only
    rw [val2_eq a1 a2, val2_eq b1 b2, val2_eq c1 c2, val2_eq d1 d2, val2_eq e1 e2,
      val2_eq f1 f2]
    split_ifs <;> simp_all
  · unfold DontorrentFast.is_in_range
    rw [htr2, htr3]
    simp only [Option.getD_some]
    rw [hQ1, hQ2, hQ3]
    dsimp only
    rw [val2_eq a1 a2, val2_eq b1 b2, val2_eq c1 c2, val2_eq d1 d2, val2_eq e1 e2,
      val2_eq f1 f2]
    split_ifs <;> simp_all

/-- C2 witness: the filters at the concrete boundary code S01E10 of the
range S01E10..S02E02, with a tagged code and untagged bounds. -/
theorem C2_range_filter_witness :
    Dontorrent.is_in_range (codeStr "HD" '0' '1' '1' '0') (codeStr "" '0' '1' '1' '0')
      (codeStr "SD" '0' '2' '0' '2') = true :=
  ((C2_range_filter "HD" "" "SD" (Or.inr (Or.inl rfl)) (Or.inl rfl) (Or.inr (Or.inr rfl))
    '0' '1' '1' '0' '0' '1' '1' '0' '0' '2' '0' '2'
    (by decide) (by decide) (by decide) (by decide) (by decide) (by decide)
    (by decide) (by decide) (by decide) (by decide) (by decide) (by decide)).1).mpr
    (by decide)

/-- C6: the range filter runs before any resolver call in both crawlers —
every content id the exhaustive crawler hands to the protected-link resolver
belongs to a row whose canonical episode code passed the format invariant
and the range filter, and every download url the early-exit crawler resolves
belongs to an episode link whose canonical code passed the range filter; a
row or link with an out-of-range code therefore never reaches the
resolver. -/
theorem C6_range_before_resolver (resolve : String → Option String)
    (episode_format format_original : String) (serie : SerieData)
    (base_url start_episode end_episode : String) (rows : List Row)
    (resolveF : String → Option String) (pages : String → EpisodePage)
    (startF endF : Option String) (baseF : String) (links : List EpLink) :
    (∀ cid ∈ (Dontorrent.get_episodes resolve episode_format format_original serie base_url
        start_episode end_episode rows).2,
      ∃ row ∈ rows, rowEligible episode_format start_episode end_episode row cid) ∧
    (∀ u ∈ (DontorrentFast.get_episodes resolveF pages links startF endF baseF).2,
      ∃ l ∈ links, ∃ g, searchL matchSEUnb l.text.data = some g ∧
        DontorrentFast.is_in_range (paddedCode g) startF endF = true ∧
        u ∈ (DontorrentFast.get_best_torrent_for_episode resolveF (pages (baseF ++ l.href))
          (paddedCode g) l.text baseF DontorrentFast.priorityOrderFast).2) :=
  ⟨crawler_trace_ex resolve episode_format format_original serie base_url start_episode
      end_episode rows,
    crawler_trace_fast_loop resolveF pages startF endF baseF links⟩

/-- C4 (amended): with a nonempty download-link list and a resolver that
always succeeds, the early-exit selection performs exactly one protected-link
resolution — on the page's first download link — so no other link is ever
fetched; the returned candidate carries the single page-level normalized
format (which, for a page advertising both 720p and 4K, is 4K by the
extractor's scan order, not 720p). -/
theorem C4_early_exit_single_resolve (resolve : String → Option String) (page : EpisodePage)
    (code text base l : String) (ls : List String)
    (hdl : page.download_links = l :: ls) (hres : ∀ u, (resolve u).isSome = true) :
    (DontorrentFast.get_best_torrent_for_episode resolve page code text base
        DontorrentFast.priorityOrderFast).2 = [base ++ l] ∧
    (DontorrentFast.get_best_torrent_for_episode resolve page code text base
        DontorrentFast.priorityOrderFast).1 =
      some (DontorrentFast.mkFastTorrent code text (pageNorm page) (pageCat page)
        ((resolve (base ++ l)).getD "")) := by
  have h := get_best_success resolve page code text base l ls hdl hres
  exact ⟨by rw [h], by rw [h]⟩

/-- C4 witness: on a page advertising both 4K and 720p with two download
links and an always-successful resolver, exactly one url is resolved — the
first link. -/
theorem C4_early_exit_single_resolve_witness :
    (DontorrentFast.get_best_torrent_for_episode (fun u => some ("r" ++ u))
        ⟨"4K y 720p", ["a", "b"]⟩ "S01E01" "S01E01" "base"
        DontorrentFast.priorityOrderFast).2 = ["basea"] :=
  (C4_early_exit_single_resolve (fun u => some ("r" ++ u)) ⟨"4K y 720p", ["a", "b"]⟩
    "S01E01" "S01E01" "base" "a" ["b"] rfl (fun _ => rfl)).1

/-- C4 counterexample: for an episode page advertising both a 720p and a 4K
rendition, the early-exit selection yields the 4K-labelled candidate (the
page-level extractor finds `4K` first), not the 720p one as claimed — though
indeed only one link is resolved. -/
theorem C4_counterexample :
    ((DontorrentFast.get_best_torrent_for_episode (fun u => some ("r" ++ u))
        ⟨"4K y 720p", ["a", "b"]⟩ "S01E01" "S01E01" "base"
        DontorrentFast.priorityOrderFast).1).map FastTorrent.format = some "4K" ∧
    ((DontorrentFast.get_best_torrent_for_episode (fun u => some ("r" ++ u))
        ⟨"4K y 720p", ["a", "b"]⟩ "S01E01" "S01E01" "base"
        DontorrentFast.priorityOrderFast).1).map FastTorrent.format ≠ some "720p" ∧
    (DontorrentFast.get_best_torrent_for_episode (fun u => some ("r" ++ u))
        ⟨"4K y 720p", ["a", "b"]⟩ "S01E01" "S01E01" "base"
        DontorrentFast.priorityOrderFast).2 = ["basea"] := by decide

/-- C10 (amended): the fast scraper's quality is extracted once from the
whole episode page, so every returned candidate carries the page-level
normalized format; the resolved link is the first download link whose
resolution succeeds, in page order — the first link when resolution always
succeeds, but a later link when resolution fails on the earlier ones. -/
theorem C10_page_level_format (resolve : String → Option String) (page : EpisodePage)
    (code text base : String) :
    (DontorrentFast.get_best_torrent_for_episode resolve page code text base
        DontorrentFast.priorityOrderFast).1 =
      (DontorrentFast.firstResolved resolve base page.download_links).map
        (fun r => DontorrentFast.mkFastTorrent code text (pageNorm page) (pageCat page) r) ∧
    (∀ t, (DontorrentFast.get_best_torrent_for_episode resolve page code text base
        DontorrentFast.priorityOrderFast).1 = some t → t.format = pageNorm page) := by
  have h := get_best_result resolve page code text base
  refine ⟨h, fun t ht => ?_⟩
  rw [h] at ht
  cases hfr : DontorrentFast.firstResolved resolve base page.download_links with
  | none => rw [hfr] at ht; cases ht
  | some r =>
    rw [hfr] at ht
    simp only [Option.map_some', Option.some.injEq] at ht
    rw [← ht]
    rfl

/-- C10 counterexample: when resolution fails on the first download link and
succeeds on the second, the returned candidate's link is the second link's
resolution, so the resolved link is not always the first download link of
the page. -/
theorem C10_counterexample :
    ((DontorrentFast.get_best_torrent_for_episode
        (fun u => if u == "basea" then none else some "ok")
        ⟨"algo 720p", ["a", "b"]⟩ "S01E01" "t" "base"
        DontorrentFast.priorityOrderFast).1).map FastTorrent.link = some "ok" ∧
    (fun (u : String) => if u == "basea" then none else some "ok") ("base" ++ "a") =
      (none : Option String) ∧
    (DontorrentFast.get_best_torrent_for_episode
        (fun u => if u == "basea" then none else some "ok")
        ⟨"algo 720p", ["a", "b"]⟩ "S01E01" "t" "base"
        DontorrentFast.priorityOrderFast).2 = ["basea", "baseb"] := by decide

/-- C5 (amended): for raw labels matching `S(\d{1,2})E(\d{1,3})` or
`(\d{1,2})x(\d{1,3})`, the extracted code zero-pads the season to exactly two
digits and the episode to at least two digits, and the tag-prefixed code
satisfies the `^(HD|SD)S\d{2}E\d{2}$` invariant exactly when the matched
episode field has at most two digits: a three-digit episode field is kept at
width three and the resulting code fails the invariant (and is rejected). -/
theorem C5_canonical_codes (t : String) (ht : t = "HD" ∨ t = "SD") (a b c d x : Char)
    (ha : isAsciiDigit a = true) (hb : isAsciiDigit b = true) (hc : isAsciiDigit c = true)
    (hd : isAsciiDigit d = true) (hx : isAsciiDigit x = true) :
    (extract_episode_code (String.mk ('S' :: a :: 'E' :: c :: [])) =
        some (String.mk ['S', '0', a, 'E', '0', c]) ∧
      is_valid_status_format (t ++ String.mk ['S', '0', a, 'E', '0', c]) = true) ∧
    (extract_episode_code (String.mk ('S' :: a :: b :: 'E' :: c :: [])) =
        some (String.mk ['S', a, b, 'E', '0', c]) ∧
      is_valid_status_format (t ++ String.mk ['S', a, b, 'E', '0', c]) = true) ∧
    (extract_episode_code (String.mk ('S' :: a :: 'E' :: c :: d :: [])) =
        some (String.mk ['S', '0', a, 'E', c, d]) ∧
      is_valid_status_format (t ++ String.mk ['S', '0', a, 'E', c, d]) = true) ∧
    (extract_episode_code (String.mk ('S' :: a :: b :: 'E' :: c :: d :: [])) =
        some (String.mk ['S', a, b, 'E', c, d]) ∧
      is_valid_status_format (t ++ String.mk ['S', a, b, 'E', c, d]) = true) ∧
    (extract_episode_code (String.mk (a :: b :: 'x' :: c :: d :: [])) =
        some (String.mk ['S', a, b, 'E', c, d])) ∧
    (extract_episode_code (String.mk ('S' :: a :: b :: 'E' :: c :: d :: x :: [])) =
        some (String.mk ['S', a, b, 'E', c, d, x]) ∧
      is_valid_status_format (t ++ String.mk ['S', a, b, 'E', c, d, x]) = false) := by
  have hnl : (x == '\n') = false := beq_false_of_digit hx (by decide)
  refine ⟨⟨?_, ?_⟩, ⟨?_, ?_⟩, ⟨?_, ?_⟩, ⟨?_, ?_⟩, ?_, ⟨?_, ?_⟩⟩
  · unfold extract_episode_code
    simp [searchL, matchSEb_11 ha hc]
    rfl
  · rcases ht with rfl | rfl <;> simp +decide [is_valid_status_format, ha, hc]
  · unfold extract_episode_code
    simp [searchL, matchSEb_21 ha hb hc]
    rfl
  · rcases ht with rfl | rfl <;> simp +decide [is_valid_status_format, ha, hb, hc]
  · unfold extract_episode_code
    simp [searchL, matchSEb_12 ha hc hd]
    rfl
  · rcases ht with rfl | rfl <;> simp +decide [is_valid_status_format, ha, hc, hd]
  · unfold extract_episode_code
    simp [searchL, matchSEb_22 ha hb hc hd]
    rfl
  · rcases ht with rfl | rfl <;> simp +decide [is_valid_status_format, ha, hb, hc, hd]
  · unfold extract_episode_code
    rw [(show (String.mk (a :: b :: 'x' :: c :: d :: [])).data = a :: b :: 'x' :: c :: d :: []
      from rfl), searchSEb_none_x ha hb hc hd]
    simp [searchL, matchXb_22 ha hb hc hd]
    rfl
  · unfold extract_episode_code
    simp [searchL, matchSEb_23 ha hb hc hd hx]
    rfl
  · rcases ht with rfl | rfl <;> simp +decide [is_valid_status_format, ha, hb, hc, hd, hnl]

/-- C5 witness: the canonicalization at the concrete labels S1E3 and 12x34,
and the rejected three-digit episode label S12E345. -/
theorem C5_canonical_codes_witness :
    extract_episode_code (String.mk ('S' :: '1' :: 'E' :: '3' :: [])) =
      some (String.mk ['S', '0', '1', 'E', '0', '3']) :=
  (C5_canonical_codes "HD" (Or.inl rfl) '1' '2' '3' '4' '5'
    (by decide) (by decide) (by decide) (by decide) (by decide)).1.1

/-- C5 counterexample: the label S01E100 matches `S(\d{1,2})E(\d{1,3})`, its
canonicalized code keeps the three-digit episode field, and the HD-prefixed
code fails the `^(HD|SD)S\d{2}E\d{2}$` invariant, so the claimed invariant
does not hold for every matching label. -/
theorem C5_counterexample :
    extract_episode_code "S01E100" = some "S01E100" ∧
    is_valid_status_format "HDS01E100" = false := by decide

/-- C3: the exhaustive policy sorts every gathered candidate descending by
the fixed priority 720p over 1080p over 4K over SD (the sorted list is a
permutation of the input and pairwise ordered by the key), every alternative
in `torrents_rest` is dominated by a primary pick of the same status, and in
the scenario where S01E01 exists as both 720p and 4K (either gathering
order), `scrape` returns the 720p candidate as primary and the 4K candidate
as the sole alternative. -/
theorem C3_exhaustive_policy (ts : List Torrent) :
    (Dontorrent.sortTorrents ts).Pairwise (fun a b => prio b ≤ prio a) ∧
    List.Perm (Dontorrent.sortTorrents ts) ts ∧
    (∀ y ∈ (Dontorrent.selectTorrents ts).2, ∃ x ∈ (Dontorrent.selectTorrents ts).1,
      x.status = y.status ∧ prio y ≤ prio x) ∧
    (Dontorrent.get_format_priority (some "1080p") <
        Dontorrent.get_format_priority (some "720p") ∧
      Dontorrent.get_format_priority (some "4K") <
        Dontorrent.get_format_priority (some "1080p") ∧
      Dontorrent.get_format_priority (some "SD") <
        Dontorrent.get_format_priority (some "4K")) ∧
    ((Dontorrent.scrape [serieDemo] (fun _ => [cand4K, cand720]) critDemo).torrents =
        [cand720] ∧
      (Dontorrent.scrape [serieDemo] (fun _ => [cand4K, cand720]) critDemo).torrents_rest =
        some [cand4K] ∧
      (Dontorrent.scrape [serieDemo] (fun _ => [cand720, cand4K]) critDemo).torrents =
        [cand720] ∧
      (Dontorrent.scrape [serieDemo] (fun _ => [cand720, cand4K]) critDemo).torrents_rest =
        some [cand4K]) := by
  refine ⟨sortTorrents_pairwise ts, sortTorrents_perm ts, fun y hy => ?_, by decide, by decide⟩
  rcases splitUnique_dominated (Dontorrent.sortTorrents ts) []
      (sortTorrents_pairwise ts) y hy with hin | hx
  · cases hin
  · exact hx

/-- C9: with valid criteria and a nonempty series list, the exhaustive
`scrape` result consists of exactly the split of the sorted gathered
candidates, its `count`, `count_rest` and `count_total` fields are the
lengths of the primary list, the alternatives list and the whole gathering
(so `count_total = count + count_rest`), the two lists are a partition — a
permutation of all gathered candidates — the primary list holds at most one
candidate per status, and every gathered status is represented in it. -/
theorem C9_partition_counts (series : List SerieData) (eps : SerieData → List Torrent)
    (criteria : Criteria)
    (hok : (truthyStr criteria.base_url && truthyStr criteria.serie_name &&
      truthyStr criteria.start_episode && truthyStr criteria.end_episode) = true)
    (hne : series.isEmpty = false) :
    Dontorrent.scrape series eps criteria =
      ⟨none, none, (Dontorrent.selectTorrents (series.flatMap eps)).1,
        some (Dontorrent.selectTorrents (series.flatMap eps)).2,
        some (Dontorrent.selectTorrents (series.flatMap eps)).1.length,
        some (series.flatMap eps).length,
        some (Dontorrent.selectTorrents (series.flatMap eps)).2.length,
        criteria.serie_name, criteria.base_url⟩ ∧
    (series.flatMap eps).length = (Dontorrent.selectTorrents (series.flatMap eps)).1.length +
      (Dontorrent.selectTorrents (series.flatMap eps)).2.length ∧
    List.Perm ((Dontorrent.selectTorrents (series.flatMap eps)).1 ++
      (Dontorrent.selectTorrents (series.flatMap eps)).2) (series.flatMap eps) ∧
    ((Dontorrent.selectTorrents (series.flatMap eps)).1.map Torrent.status).Nodup ∧
    (∀ t ∈ series.flatMap eps,
      t.status ∈ (Dontorrent.selectTorrents (series.flatMap eps)).1.map Torrent.status) := by
  have hperm : List.Perm ((Dontorrent.selectTorrents (series.flatMap eps)).1 ++
      (Dontorrent.selectTorrents (series.flatMap eps)).2) (series.flatMap eps) :=
    (splitUnique_perm (Dontorrent.sortTorrents (series.flatMap eps)) []).trans
      (sortTorrents_perm (series.flatMap eps))
  refine ⟨?_, ?_, hperm, (splitUnique_nodup _ []).1, fun t ht => ?_⟩
  · unfold Dontorrent.scrape
    rw [hok, hne]
    rfl
  · have := hperm.length_eq
    simpa using this.symm
  · have ht' : t ∈ Dontorrent.sortTorrents (series.flatMap eps) :=
      (sortTorrents_perm (series.flatMap eps)).mem_iff.mpr ht
    rcases splitUnique_covers (Dontorrent.sortTorrents (series.flatMap eps)) [] t ht' with h | h
    · cases h
    · exact h

/-- C9 witness: the partition and counts at a concrete run with one series
and the two-candidate gathering. -/
theorem C9_partition_counts_witness :
    (Dontorrent.scrape [serieDemo] (fun _ => [cand4K, cand720]) critDemo).count_total =
      some ((Dontorrent.selectTorrents ([serieDemo].flatMap (fun _ => [cand4K, cand720]))).1.length +
        (Dontorrent.selectTorrents ([serieDemo].flatMap (fun _ => [cand4K, cand720]))).2.length) := by
  have h := C9_partition_counts [serieDemo] (fun _ => [cand4K, cand720]) critDemo
    (by decide) (by decide)
  rw [h.1]
  rw [h.2.1]

/-- C7 (amended): for criteria with any required field missing or falsy, the
exhaustive scraper returns a structured error result with an empty torrent
list, while the fast scraper raises `ValueError` (the `Except.error`
outcome) instead of returning a structured result. -/
theorem C7_missing_criteria (series : List SerieData) (eps : SerieData → List Torrent)
    (series_url : Option String) (eps_fast : Nat → List FastTorrent) (criteria : Criteria)
    (hmiss : (truthyStr criteria.base_url && truthyStr criteria.serie_name &&
      truthyStr criteria.start_episode && truthyStr criteria.end_episode) = false) :
    Dontorrent.scrape series eps criteria =
      ⟨some "Faltan parámetros requeridos: base_url, serie_name, start_episode, end_episode",
        none, [], none, none, none, none, none, none⟩ ∧
    DontorrentFast.scrape series_url eps_fast criteria =
      Except.error "Se requieren 'base_url', 'serie_name', 'start_episode' y 'end_episode'" := by
  constructor
  · unfold Dontorrent.scrape
    rw [hmiss]
    rfl
  · unfold DontorrentFast.scrape
    rw [hmiss]
    rfl

/-- C7 witness: the exhaustive scraper's structured error at a concrete
criteria dictionary missing `start_episode`. -/
theorem C7_missing_criteria_witness :
    Dontorrent.scrape [] (fun _ => []) ⟨some "b", some "s", none, some "S01E02", none⟩ =
      ⟨some "Faltan parámetros requeridos: base_url, serie_name, start_episode, end_episode",
        none, [], none, none, none, none, none, none⟩ :=
  (C7_missing_criteria [] (fun _ => []) none (fun _ => [])
    ⟨some "b", some "s", none, some "S01E02", none⟩ (by decide)).1

/-- C7 counterexample: at a concrete criteria dictionary missing
`start_episode`, the fast scraper's `scrape` raises `ValueError` (the
`Except.error` outcome) rather than returning a structured error result, so
the claim fails for that variant. -/
theorem C7_counterexample :
    DontorrentFast.scrape none (fun _ => []) ⟨some "b", some "s", none, some "S01E02", none⟩ =
      Except.error "Se requieren 'base_url', 'serie_name', 'start_episode' y 'end_episode'" := rfl

/-- C8: both quality normalizers are idempotent — normalizing any (possibly
absent) string twice equals normalizing it once — and each of the canonical
values 4K, 1080p, 720p and SD is returned unchanged by both variants. -/
theorem C8_normalize_idempotent (x : Option String) :
    Dontorrent.normalize_format (some (Dontorrent.normalize_format x)) =
      Dontorrent.normalize_format x ∧
    DontorrentFast.normalize_format (some (DontorrentFast.normalize_format x)) =
      DontorrentFast.normalize_format x ∧
    (Dontorrent.normalize_format (some "4K") = "4K" ∧
      Dontorrent.normalize_format (some "1080p") = "1080p" ∧
      Dontorrent.normalize_format (some "720p") = "720p" ∧
      Dontorrent.normalize_format (some "SD") = "SD") ∧
    (DontorrentFast.normalize_format (some "4K") = "4K" ∧
      DontorrentFast.normalize_format (some "1080p") = "1080p" ∧
      DontorrentFast.normalize_format (some "720p") = "720p" ∧
      DontorrentFast.normalize_format (some "SD") = "SD") := by
  refine ⟨?_, ?_, by decide, by decide⟩
  · rcases normalize_range_ex x with h | h | h | h <;> rw [h] <;> decide
  · rcases normalize_range_fast x with h | h | h | h <;> rw [h] <;> decide

end ScrapApi
